import Mathlib

/-!
Verification development for the tor-parse circuit protocol engine
(src/src/main.rs, src/src/keys.rs).

Machine bytes and words are modelled as `Nat` with explicit masking.
SHA-1 and AES-128-CTR (the `sha1` and `crypto` crates used by the source)
are implemented concretely below and validated against standard test
vectors.  HMAC-SHA256 and curve25519 scalar multiplication (the `hmac`,
`sha2` and `curve25519_dalek` crates) enter the source only as opaque
primitives whose inputs and outputs are routed around, so they are taken
as function parameters.  Items of this repository that live in modules
not present under src (types.rs, certs.rs) are modelled from the
specification and marked as such in their doc comments.
-/

/-- byte-level xor. -/
def bxor (a b : Nat) : Nat := a ^^^ b

/-- big-endian encoding of `v` into `n` bytes. -/
def beBytes (n v : Nat) : List Nat :=
  (List.range n).map (fun i => v / 256 ^ (n - 1 - i) % 256)

/-- big-endian value of a byte list. -/
def beVal (l : List Nat) : Nat :=
  l.foldl (fun a b => a * 256 + b) 0

/-- ASCII bytes of a string literal (models Rust byte-string literals). -/
def strBytes (s : String) : List Nat := s.data.map Char.toNat

def mask32 : Nat := 4294967295

def rotl32 (n x : Nat) : Nat :=
  ((x <<< n) ||| (x >>> (32 - n))) &&& mask32

/-- pack bytes into big-endian 32-bit words, four bytes per word. -/
def bytesToWords32 : List Nat → List Nat
  | b0 :: b1 :: b2 :: b3 :: rest =>
      (((b0 * 256 + b1) * 256 + b2) * 256 + b3) :: bytesToWords32 rest
  | _ => []

/-- big-endian bytes of a 32-bit word. -/
def wordToBytes32 (w : Nat) : List Nat :=
  [w / 16777216 % 256, w / 65536 % 256, w / 256 % 256, w % 256]

/-- SHA-1 message schedule: extend the 16 block words by `n` more words. -/
def sha1ExpandFrom (w : List Nat) : Nat → List Nat
  | 0 => w
  | n + 1 =>
    let i := w.length
    let nw := rotl32 1 ((w.getD (i - 3) 0) ^^^ (w.getD (i - 8) 0) ^^^
      (w.getD (i - 14) 0) ^^^ (w.getD (i - 16) 0))
    sha1ExpandFrom (w ++ [nw]) n

def sha1F (i b c d : Nat) : Nat :=
  if i < 20 then (b &&& c) ||| ((b ^^^ mask32) &&& d)
  else if i < 40 then b ^^^ c ^^^ d
  else if i < 60 then (b &&& c) ||| (b &&& d) ||| (c &&& d)
  else b ^^^ c ^^^ d

def sha1K (i : Nat) : Nat :=
  if i < 20 then 1518500249
  else if i < 40 then 1859775393
  else if i < 60 then 2400959708
  else 3395469782

def sha1Round (w : List Nat) (st : Nat × Nat × Nat × Nat × Nat) (i : Nat) :
    Nat × Nat × Nat × Nat × Nat :=
  let (a, b, c, d, e) := st
  let t := (rotl32 5 a + sha1F i b c d + e + sha1K i + w.getD i 0) &&& mask32
  (t, a, rotl32 30 b, c, d)

/-- one SHA-1 compression-function application. -/
def sha1Block (h : Nat × Nat × Nat × Nat × Nat) (block : List Nat) :
    Nat × Nat × Nat × Nat × Nat :=
  let w := sha1ExpandFrom (bytesToWords32 block) 64
  let (h0, h1, h2, h3, h4) := h
  let (a, b, c, d, e) := (List.range 80).foldl (sha1Round w) (h0, h1, h2, h3, h4)
  ((h0 + a) &&& mask32, (h1 + b) &&& mask32, (h2 + c) &&& mask32,
    (h3 + d) &&& mask32, (h4 + e) &&& mask32)

/-- split a byte list into 64-byte chunks (fuel-based structural recursion). -/
def chunks64Fuel : Nat → List Nat → List (List Nat)
  | 0, _ => []
  | _, [] => []
  | fuel + 1, a :: rest => (a :: rest).take 64 :: chunks64Fuel fuel ((a :: rest).drop 64)

def listChunks64 (l : List Nat) : List (List Nat) := chunks64Fuel l.length l

/-- standard Merkle–Damgard padding for SHA-1. -/
def sha1Pad (msg : List Nat) : List Nat :=
  let l := msg.length
  let k := (64 - (l + 9) % 64) % 64
  msg ++ [128] ++ List.replicate k 0 ++ beBytes 8 (8 * l)

/-- SHA-1 of a byte list, as computed by the `sha1` crate used by the source. -/
def sha1 (msg : List Nat) : List Nat :=
  let blocks := listChunks64 (sha1Pad msg)
  let h := blocks.foldl sha1Block (1732584193, 4023233417, 2562383102, 271733878, 3285377520)
  wordToBytes32 h.1 ++ wordToBytes32 h.2.1 ++ wordToBytes32 h.2.2.1 ++
    wordToBytes32 h.2.2.2.1 ++ wordToBytes32 h.2.2.2.2

/-- multiplication by x in GF(2^8) with the AES reduction polynomial. -/
def xtime (b : Nat) : Nat :=
  if b &&& 128 = 0 then (b <<< 1) &&& 255 else ((b <<< 1) &&& 255) ^^^ 27

/-- GF(2^8) product, shift-and-add over the bits of `b` (8 bits of fuel). -/
def gmulFuel : Nat → Nat → Nat → Nat
  | 0, _, _ => 0
  | fuel + 1, a, b =>
    let acc := if b &&& 1 = 1 then a else 0
    acc ^^^ gmulFuel fuel (xtime a) (b >>> 1)

def gmul (a b : Nat) : Nat := gmulFuel 8 a b

def gpow (a : Nat) : Nat → Nat
  | 0 => 1
  | n + 1 => gmul a (gpow a n)

def rotl8 (n x : Nat) : Nat := ((x <<< n) ||| (x >>> (8 - n))) &&& 255

/-- the AES S-box as defined by FIPS-197: multiplicative inverse in GF(2^8)
    (realised as the 254th power) followed by the affine transformation. -/
def sboxFormula (b : Nat) : Nat :=
  let inv := gpow (b &&& 255) 254
  inv ^^^ rotl8 1 inv ^^^ rotl8 2 inv ^^^ rotl8 3 inv ^^^ rotl8 4 inv ^^^ 99

/-- inverse of the FIPS-197 affine transformation, used to validate the
    packed S-box table below. -/
def sboxInvAffine (s : Nat) : Nat := rotl8 1 s ^^^ rotl8 3 s ^^^ rotl8 6 s ^^^ 5

/-- the AES S-box packed as one number, byte `i` at radix position `256^i`;
    validated below against the S-box defining property
    (`sbox_field_property`, `sbox_spot_check`) and two AES known-answer
    tests. -/
def sboxNat : Nat := 0x16bb54b00f2d99416842e6bf0d89a18cdf2855cee9871e9b948ed9691198f8e19e1dc186b95735610ef6034866b53e708a8bbd4b1f74dde8c6b4a61c2e2578ba08ae7a65eaf4566ca94ed58d6d37c8e779e4959162acd3c25c2406490a3a32e0db0b5ede14b8ee4688902a22dc4f816073195d643d7ea7c41744975fec130ccdd2f3ff1021dab6bcf5389d928f40a351a89f3c507f02f94585334d43fbaaefd0cf584c4a39becb6a5bb1fc20ed00d153842fe329b3d63b52a05a6e1b1a2c830975b227ebe28012079a059618c323c7041531d871f1e5a534ccf73f362693fdb7c072a49cafa2d4adf04759fa7dc982ca76abd7fe2b670130c56f6bf27b777c63

def sbox (b : Nat) : Nat := (sboxNat >>> (8 * (b &&& 255))) &&& 255

def subWord (w : Nat) : Nat :=
  (sbox (w >>> 24) <<< 24) ||| (sbox ((w >>> 16) &&& 255) <<< 16) |||
    (sbox ((w >>> 8) &&& 255) <<< 8) ||| sbox (w &&& 255)

def rotWord (w : Nat) : Nat := ((w <<< 8) ||| (w >>> 24)) &&& mask32

def rcon : List Nat := [1, 2, 4, 8, 16, 32, 64, 128, 27, 54]

/-- AES-128 key schedule: extend the 4 key words by `n` more words. -/
def expandFrom (ws : List Nat) : Nat → List Nat
  | 0 => ws
  | n + 1 =>
    let i := ws.length
    let prev := ws.getD (i - 1) 0
    let t := if i % 4 = 0 then subWord (rotWord prev) ^^^ ((rcon.getD (i / 4 - 1) 0) <<< 24)
             else prev
    expandFrom (ws ++ [((ws.getD (i - 4) 0) ^^^ t)]) n

def keyWords (key : List Nat) : List Nat :=
  expandFrom (bytesToWords32 key) 40

def roundKeyBytes (ws : List Nat) (r : Nat) : List Nat :=
  wordToBytes32 (ws.getD (4 * r) 0) ++ wordToBytes32 (ws.getD (4 * r + 1) 0) ++
    wordToBytes32 (ws.getD (4 * r + 2) 0) ++ wordToBytes32 (ws.getD (4 * r + 3) 0)

def addRoundKey (st rk : List Nat) : List Nat := List.zipWith bxor st rk

def subBytesL (st : List Nat) : List Nat := st.map sbox

/-- AES ShiftRows on the column-major 16-byte state. -/
def shiftRowsL (s : List Nat) : List Nat :=
  [s.getD 0 0, s.getD 5 0, s.getD 10 0, s.getD 15 0,
   s.getD 4 0, s.getD 9 0, s.getD 14 0, s.getD 3 0,
   s.getD 8 0, s.getD 13 0, s.getD 2 0, s.getD 7 0,
   s.getD 12 0, s.getD 1 0, s.getD 6 0, s.getD 11 0]

def mixCol (a b c d : Nat) : List Nat :=
  [xtime a ^^^ (xtime b ^^^ b) ^^^ c ^^^ d,
   a ^^^ xtime b ^^^ (xtime c ^^^ c) ^^^ d,
   a ^^^ b ^^^ xtime c ^^^ (xtime d ^^^ d),
   (xtime a ^^^ a) ^^^ b ^^^ c ^^^ xtime d]

def mixColumnsL (s : List Nat) : List Nat :=
  mixCol (s.getD 0 0) (s.getD 1 0) (s.getD 2 0) (s.getD 3 0) ++
    mixCol (s.getD 4 0) (s.getD 5 0) (s.getD 6 0) (s.getD 7 0) ++
    mixCol (s.getD 8 0) (s.getD 9 0) (s.getD 10 0) (s.getD 11 0) ++
    mixCol (s.getD 12 0) (s.getD 13 0) (s.getD 14 0) (s.getD 15 0)

def aesRound (ws : List Nat) (st : List Nat) (r : Nat) : List Nat :=
  addRoundKey (mixColumnsL (shiftRowsL (subBytesL st))) (roundKeyBytes ws r)

/-- AES-128 block encryption per FIPS-197 (the only direction CTR mode needs). -/
def aesEncryptBlock (key block : List Nat) : List Nat :=
  let ws := keyWords key
  let st0 := addRoundKey block (roundKeyBytes ws 0)
  let st9 := (List.range 9).foldl (fun st i => aesRound ws st (i + 1)) st0
  addRoundKey (shiftRowsL (subBytesL st9)) (roundKeyBytes ws 10)

/-- AES-128-CTR keystream bytes `[pos, pos+len)` for a zero IV, as produced by
    the `crypto` crate's `aes::ctr` stream used by the source (counter blocks
    are the big-endian block indices since the IV is all zero bytes). -/
def keystream (key : List Nat) (pos len : Nat) : List Nat :=
  let lo := pos / 16
  let hi := (pos + len + 15) / 16
  let blocks := ((List.range (hi - lo)).map (fun j => aesEncryptBlock key (beBytes 16 (lo + j)))).flatten
  (blocks.drop (pos % 16)).take len

/-- an AES-128-CTR stream context: `src/src/main.rs` `AesContext` (key plus
    the implicit stream position of the stateful cipher object). -/
structure AesContext where
  key : List Nat
  pos : Nat
deriving DecidableEq, Repr

/-- AesContext::new (main.rs lines 84-92): zero IV, 16-byte key
    (`slice_to_16_byte_array`), stream at position 0. -/
def AesContext.new (key : List Nat) : AesContext := ⟨key.take 16, 0⟩

/-- one `process` call of the synchronous stream cipher: xor the bytes with
    the next `bytes.length` keystream bytes and advance the stream. -/
def AesContext.process (ctx : AesContext) (bytes : List Nat) : List Nat × AesContext :=
  (List.zipWith bxor bytes (keystream ctx.key ctx.pos bytes.length),
    ⟨ctx.key, ctx.pos + bytes.length⟩)

/-- CircuitKeys (main.rs lines 94-100).  The running SHA-1 digest objects are
    modelled by the byte sequence absorbed so far (`Sha1::from(k)` is the
    state that has absorbed `k`). -/
structure CircuitKeys where
  forward_digest : List Nat
  backward_digest : List Nat
  forward_key : AesContext
  backward_key : AesContext
deriving DecidableEq, Repr

/-- CircuitKeys::new (main.rs lines 102-111). -/
def CircuitKeys.new (k : List Nat) : CircuitKeys :=
  { forward_digest := k.take 20
    backward_digest := (k.drop 20).take 20
    forward_key := AesContext.new ((k.drop 40).take 16)
    backward_key := AesContext.new ((k.drop 56).take 16) }

/-- constant_time_eq crate: functionally, equality of byte slices. -/
def constant_time_eq (a b : List Nat) : Bool := a == b

/-- tor_kdf (main.rs lines 707-728): KDF-TOR for CREATE_FAST.  The computed
    `kh_calculated` is compared against `kh`, but the source only prints a
    message on mismatch and unconditionally derives and returns the keys;
    `_kh_ok` records the discarded comparison result. -/
def tor_kdf (x y kh : List Nat) : CircuitKeys :=
  let k0 := x ++ y
  let _kh_ok := constant_time_eq (sha1 (k0 ++ [0])) kh
  CircuitKeys.new (sha1 (k0 ++ [1]) ++ sha1 (k0 ++ [2]) ++ sha1 (k0 ++ [3]) ++ sha1 (k0 ++ [4]))

/-- compute_ntor_keys (main.rs lines 476-516), KDF-RFC5869 with the hmac
    primitive as a parameter: `hmac input key` is HMAC-SHA256 of `input`
    under `key` (the source's `ntor_hmac(input, context)`). -/
def compute_ntor_keys (hmac : List Nat → List Nat → List Nat) (key_seed : List Nat) :
    CircuitKeys :=
  let m_expand := strBytes "ntor-curve25519-sha256-1:key_expand"
  let k_1 := hmac (m_expand ++ [1]) key_seed
  let k_2 := hmac (k_1 ++ m_expand ++ [2]) key_seed
  let k_3 := hmac (k_2 ++ m_expand ++ [3]) key_seed
  CircuitKeys.new (k_1 ++ k_2 ++ k_3)

/-- Modelled from the spec: `types::NtorServerHandshake::read_new` (types.rs is
    not under src).  Spec section 4.3: on reply, parse `server_pk = Y[32]`,
    `auth[32]` from the CREATED2/EXTENDED2 handshake data. -/
def ntor_server_handshake_read (h_data : List Nat) : Option (List Nat × List Nat) :=
  if 64 ≤ h_data.length then some (h_data.take 32, (h_data.drop 32).take 32) else none

/-- RFC 7748 clamping as performed in ntor_handshake (main.rs lines 743-745):
    clear the three low bits of byte 0, clear bit 7 and set bit 6 of byte 31. -/
def clamp_scalar_bytes (x : List Nat) : List Nat :=
  x.mapIdx (fun i b => if i = 0 then b &&& 248 else if i = 31 then (b &&& 127) ||| 64 else b)

/-- ntor_handshake (main.rs lines 730-776).  `hmac input key` stands for the
    hmac crate's HMAC-SHA256 and `curve p s` for curve25519_dalek scalar
    multiplication of point `p` by scalar `s` (compressed byte forms); both
    are external crates.  The result is `none` when parsing the handshake
    reply fails (the source unwraps, i.e. panics, there). -/
def ntor_handshake (hmac curve : List Nat → List Nat → List Nat)
    (h_data router_id server_B client_X client_x : List Nat) :
    Option (Except Unit CircuitKeys) :=
  match ntor_server_handshake_read h_data with
  | none => none
  | some (server_pk, auth) =>
    let x := clamp_scalar_bytes client_x
    let exp_Y_x := curve server_pk x
    let exp_B_x := curve server_B x
    let secret_input := exp_Y_x ++ exp_B_x ++ router_id ++ server_B ++ client_X ++
      server_pk ++ strBytes "ntor-curve25519-sha256-1"
    let verify := hmac secret_input (strBytes "ntor-curve25519-sha256-1:verify")
    let auth_input := verify ++ router_id ++ server_B ++ server_pk ++ client_X ++
      strBytes "ntor-curve25519-sha256-1" ++ strBytes "Server"
    let calculated_auth := hmac auth_input (strBytes "ntor-curve25519-sha256-1:mac")
    if constant_time_eq calculated_auth auth then
      some (Except.ok (compute_ntor_keys hmac
        (hmac secret_input (strBytes "ntor-curve25519-sha256-1:key_extract"))))
    else
      some (Except.error ())

/-- Modelled from the spec: the relay cell carried inside RELAY / RELAY_EARLY
    cells (`types::RelayCell`, types.rs not under src).  Spec section 3:
    `(relay_command: u8, recognized: u16, stream_id: u16, digest: u32,
    length: u16, data: bytes, padding)`; fixed cells are padded with zero
    bytes to the 509-byte payload size. -/
structure RelayCell where
  relay_command : Nat
  recognized : Nat
  stream_id : Nat
  digest : Nat
  data : List Nat
deriving DecidableEq, Repr

/-- Modelled from the spec: serialisation of a relay cell (big-endian fields,
    zero padding up to the 509-byte fixed payload). -/
def relayCellEncode (cmd recognized stream_id digest : Nat) (data : List Nat) : List Nat :=
  [cmd] ++ beBytes 2 recognized ++ beBytes 2 stream_id ++ beBytes 4 digest ++
    beBytes 2 data.length ++ data ++ List.replicate (498 - data.length) 0

/-- Modelled from the spec: `types::RelayCell::read_new` — parse the header
    fields and take `length` bytes of data, ignoring the padding. -/
def relayCellParse (bytes : List Nat) : Option RelayCell :=
  match bytes with
  | c :: r1 :: r0 :: s1 :: s0 :: d3 :: d2 :: d1 :: d0 :: l1 :: l0 :: rest =>
    let len := l1 * 256 + l0
    if len ≤ rest.length then
      some ⟨c, r1 * 256 + r0, s1 * 256 + s0,
        ((d3 * 256 + d2) * 256 + d1) * 256 + d0, rest.take len⟩
    else none
  | _ => none

/-- loop body of Circuit::encrypt_cell_bytes (main.rs lines 357-383), running
    over the hop list already reversed (`iter_mut().rev()`: last-added hop
    first).  On the first iteration the relay cell is framed with
    `recognized = 0` and `stream_id = 0`, `set_digest` absorbs the zero-digest
    cell bytes into that hop's running forward digest and writes the first 4
    digest bytes into the `digest` field (modelled from the spec, since
    `RelayCell::set_digest` lives in types.rs); every iteration then applies
    the hop's forward AES-CTR stream. -/
def encryptGo (relay_command : Nat) : Bool → List Nat → List CircuitKeys →
    List Nat × List CircuitKeys
  | _, bytes, [] => (bytes, [])
  | first, bytes, ck :: rest =>
    let fr :=
      if first then
        let fd := ck.forward_digest ++ relayCellEncode relay_command 0 0 0 bytes
        (relayCellEncode relay_command 0 0 (beVal ((sha1 fd).take 4)) bytes, fd)
      else (bytes, ck.forward_digest)
    let enc := ck.forward_key.process fr.1
    let out := encryptGo relay_command false enc.1 rest
    (out.1, { ck with forward_digest := fr.2, forward_key := enc.2 } :: out.2)

/-- Circuit::encrypt_cell_bytes (main.rs lines 357-383): frame the payload as
    a relay cell at the innermost (last-added) hop and encrypt from the
    innermost hop outward; returns the wire bytes and the updated hop list. -/
def encrypt_cell_bytes (circuit_keys : List CircuitKeys) (relay_command : Nat)
    (bytes : List Nat) : List Nat × List CircuitKeys :=
  let out := encryptGo relay_command true bytes circuit_keys.reverse
  (out.1, out.2.reverse)

/-- loop body of Circuit::decrypt_cell_bytes (main.rs lines 385-402): apply
    each hop's backward AES-CTR stream, first-added hop first. -/
def decryptGo : List Nat → List CircuitKeys → List Nat × List CircuitKeys
  | bytes, [] => (bytes, [])
  | bytes, ck :: rest =>
    let dec := ck.backward_key.process bytes
    let out := decryptGo dec.1 rest
    (out.1, { ck with backward_key := dec.2 } :: out.2)

/-- Circuit::decrypt_cell_bytes (main.rs lines 385-402): decrypt through every
    hop unconditionally (the source checks neither `recognized` nor the
    digest at any layer) and parse the result; `none` models the panic of the
    final `.unwrap()` when parsing fails. -/
def decrypt_cell_bytes (circuit_keys : List CircuitKeys) (in_bytes : List Nat) :
    Option RelayCell × List CircuitKeys :=
  let out := decryptGo in_bytes circuit_keys
  (relayCellParse out.1, out.2)

/-- retry loop of CircuitIdTracker::get_new_circ_id (main.rs lines 62-77):
    `draws` is the CSPRNG stream (`csprng.gen::<u32>()`, modelled as an
    arbitrary stream reduced mod 2^32), `used` the set of live circuit ids,
    `i` the index of the next draw and the last argument the remaining
    retries. -/
def circIdGo (draws : Nat → Nat) (used : List Nat) : Nat → Nat → Option (Nat × List Nat)
  | _, 0 => none
  | i, retries + 1 =>
    let new_circ_id := (draws i % 4294967296) ||| 2147483648
    if new_circ_id ∈ used then circIdGo draws used (i + 1) retries
    else some (new_circ_id, new_circ_id :: used)

/-- CircuitIdTracker::get_new_circ_id (main.rs lines 62-77): up to 1024 draws
    with the high bit forced; `none` models the panic after exhausting the
    retry limit, otherwise the fresh id and the updated live set are
    returned. -/
def get_new_circ_id (draws : Nat → Nat) (used : List Nat) : Option (Nat × List Nat) :=
  circIdGo draws used 0 1024

/-- Modelled from the spec: an X.509 certificate value (certs.rs is not under
    src); parsed certificates are immutable values identified by their DER
    bytes. -/
structure X509Cert where
  der : List Nat
deriving DecidableEq, Repr

/-- Modelled from the spec: an Ed25519 cert-format certificate value. -/
structure Ed25519Cert where
  body : List Nat
deriving DecidableEq, Repr

/-- Modelled from the spec: the RSA-cross-signed Ed25519 identity blob; it
    carries the Ed25519 identity key. -/
structure Ed25519Identity where
  body : List Nat
  key_bytes : List Nat
deriving DecidableEq, Repr

/-- Modelled from the spec: the certificate variants of `certs::Cert`
    distinguished by ResponderCerts::new (main.rs lines 537-564); the
    catch-all arm of the source's match is `otherCertType`. -/
inductive Cert where
  | rsaIdentity (c : X509Cert)
  | ed25519Signing (c : Ed25519Cert)
  | ed25519Link (c : Ed25519Cert)
  | ed25519Identity (c : Ed25519Identity)
  | otherCertType
deriving DecidableEq, Repr

/-- ResponderCerts (main.rs lines 520-526). -/
structure ResponderCerts where
  rsa_identity_cert : X509Cert
  ed25519_signing_cert : Ed25519Cert
  ed25519_link_cert : Ed25519Cert
  ed25519_identity_cert : Ed25519Identity
deriving DecidableEq, Repr

/-- collection loop of ResponderCerts::new (main.rs lines 529-565), with the
    source's error strings verbatim (note the copy-pasted duplicate message
    in all four duplicate arms). -/
def responderCertsCollect : List Cert → Option X509Cert → Option Ed25519Cert →
    Option Ed25519Cert → Option Ed25519Identity → Except String ResponderCerts
  | [], rsa, signing, link, identity =>
    match rsa with
    | none => Except.error "no RSA identity cert"
    | some rsa_c =>
      match signing with
      | none => Except.error "no ed25519 signing cert"
      | some signing_c =>
        match link with
        | none => Except.error "no ed25519 link cert"
        | some link_c =>
          match identity with
          | none => Except.error "no ed25519 identity cert"
          | some identity_c => Except.ok ⟨rsa_c, signing_c, link_c, identity_c⟩
  | cert :: rest, rsa, signing, link, identity =>
    match cert with
    | Cert.rsaIdentity c =>
      match rsa with
      | some _ => Except.error "more than one RSA identity cert -> invalid CERTS cell"
      | none => responderCertsCollect rest (some c) signing link identity
    | Cert.ed25519Signing c =>
      match signing with
      | some _ => Except.error "more than one RSA identity cert -> invalid CERTS cell"
      | none => responderCertsCollect rest rsa (some c) link identity
    | Cert.ed25519Link c =>
      match link with
      | some _ => Except.error "more than one RSA identity cert -> invalid CERTS cell"
      | none => responderCertsCollect rest rsa signing (some c) identity
    | Cert.ed25519Identity c =>
      match identity with
      | some _ => Except.error "more than one RSA identity cert -> invalid CERTS cell"
      | none => responderCertsCollect rest rsa signing link (some c)
    | Cert.otherCertType => responderCertsCollect rest rsa signing link identity

/-- ResponderCerts::new (main.rs lines 529-584). -/
def ResponderCerts.new (certs : List Cert) : Except String ResponderCerts :=
  responderCertsCollect certs none none none none

/-- Modelled from the spec: the cryptographic checks implemented by certs.rs
    (not under src) and invoked by ResponderCerts::validate; they are opaque
    predicates on the immutable certificate values. -/
structure CertChecks where
  is_self_signed : X509Cert → Bool
  rsa_key_bits : X509Cert → Nat
  check_ed25519_identity_signature : X509Cert → Ed25519Identity → Bool
  check_ed25519_signature : List Nat → Ed25519Cert → Bool
  signing_key_bytes : Ed25519Cert → List Nat
  check_x509_certificate_hash : Ed25519Cert → List Nat → Bool

/-- ResponderCerts::validate (main.rs lines 586-624), with the source's error
    strings and check order verbatim; `matches_expected_key` is equality with
    the caller-supplied expected Ed25519 identity key. -/
def ResponderCerts.validate (self : ResponderCerts) (checks : CertChecks)
    (expected_ed25519_id_key : List Nat) (peer_cert_hash : List Nat) :
    Except String Unit :=
  if !(checks.is_self_signed self.rsa_identity_cert) then
    Except.error "RSA identity cert is not self-signed"
  else if !(checks.check_ed25519_identity_signature self.rsa_identity_cert
      self.ed25519_identity_cert) then
    Except.error "RSA identity cert did not sign Ed25519 identity cert"
  else if checks.rsa_key_bits self.rsa_identity_cert ≠ 1024 then
    Except.error "RSA identity key wrong size"
  else if self.ed25519_identity_cert.key_bytes ≠ expected_ed25519_id_key then
    Except.error "Ed25519 identity key does not match the expected key"
  else if !(checks.check_ed25519_signature self.ed25519_identity_cert.key_bytes
      self.ed25519_signing_cert) then
    Except.error "Ed25519 identity key did not sign Ed25519 signing cert"
  else if !(checks.check_ed25519_signature (checks.signing_key_bytes self.ed25519_signing_cert)
      self.ed25519_link_cert) then
    Except.error "Ed25519 signing key did not sign Ed25519 link cert"
  else if !(checks.check_x509_certificate_hash self.ed25519_link_cert peer_cert_hash) then
    Except.error "Ed25519 link key does not match peer certificate"
  else Except.ok ()

/-- cert-handling of Circuit::read_certs (main.rs lines 175-196): the CERTS
    cell's certificates are collected (the `.unwrap()` on ResponderCerts::new
    panics on failure, modelled by propagating the error); when validation
    succeeds the certs are stored, but when validation FAILS the method
    returns normally with nothing stored and the handshake continues (the
    source's TODO comment admits the connection should be closed instead). -/
def read_certs_update (checks : CertChecks) (certs : List Cert)
    (expected_ed25519_id_key peer_cert_hash : List Nat) :
    Except String (Option ResponderCerts) :=
  match ResponderCerts.new certs with
  | Except.error e => Except.error e
  | Except.ok rc =>
    match rc.validate checks expected_ed25519_id_key peer_cert_hash with
    | Except.ok _ => Except.ok (some rc)
    | Except.error _ => Except.ok none

/-- key-handling tail of Circuit::extend (main.rs lines 444-453): on a
    successful ntor handshake the new hop keys are pushed; on failure the
    `if let Ok(...)` silently falls through — the hop list is unchanged and
    no error reaches the caller. -/
def extend_apply_handshake (circuit_keys : List CircuitKeys)
    (r : Except Unit CircuitKeys) : List CircuitKeys :=
  match r with
  | Except.ok ck => circuit_keys ++ [ck]
  | Except.error _ => circuit_keys

/-- MAX_RSA_KEY_BITS (keys.rs line 14). -/
def MAX_RSA_KEY_BITS : Nat := 16384

/-- RsaKey (keys.rs lines 16-18): the generated openssl key pair, observable
    here through its bit length. -/
structure RsaKey where
  bits : Nat
deriving DecidableEq, Repr

/-- RsaKey::new (keys.rs lines 21-32). -/
def RsaKey.new (bit_len : Nat) : Except String RsaKey :=
  if bit_len > MAX_RSA_KEY_BITS then Except.error "specified RSA key size too large"
  else Except.ok ⟨bit_len⟩

/-- Ed25519Key (keys.rs lines 74-85): a generated Ed25519 key pair, observable
    through its public key bytes. -/
structure Ed25519Key where
  pub_bytes : List Nat
deriving DecidableEq, Repr

/-- RsaKey::sign_ed25519_key (keys.rs lines 66-72): the RSA cross-signature
    over the Ed25519 identity key is left unimplemented by the source and
    always fails. -/
def RsaKey.sign_ed25519_key (_self : RsaKey) (_k : Ed25519Key) :
    Except String Ed25519Identity :=
  Except.error "unimplemented"

/-- InitiatorCerts (main.rs lines 629-638). -/
structure InitiatorCerts where
  rsa_identity_key : RsaKey
  rsa_identity_cert : X509Cert
  ed25519_identity_key : Ed25519Key
  ed25519_identity_cert : Ed25519Identity
  ed25519_signing_key : Ed25519Key
  ed25519_signing_cert : Ed25519Cert
  ed25519_authenticate_key : Ed25519Key
  ed25519_authenticate_cert : Ed25519Cert

/-- InitiatorCerts::new (main.rs lines 641-666).  Key generation, the
    self-signed X.509 certificate (keys.rs generate_self_signed_cert) and the
    Ed25519-over-Ed25519 cert minting (missing from src; modelled from the
    spec as a parameter `ed_sign signer signee cert_type`) are taken as
    inputs; each `.unwrap()` is modelled by error propagation. -/
def InitiatorCerts.new (self_signed_cert : X509Cert)
    (id_key signing_key auth_key : Ed25519Key)
    (ed_sign : Ed25519Key → Ed25519Key → Nat → Ed25519Cert) :
    Except String InitiatorCerts := do
  let rsa_identity_key ← RsaKey.new 1024
  let rsa_identity_cert := self_signed_cert
  let ed25519_identity_cert ← rsa_identity_key.sign_ed25519_key id_key
  let ed25519_signing_cert := ed_sign id_key signing_key 4
  let ed25519_authenticate_cert := ed_sign signing_key auth_key 6
  pure { rsa_identity_key := rsa_identity_key
         rsa_identity_cert := rsa_identity_cert
         ed25519_identity_key := id_key
         ed25519_identity_cert := ed25519_identity_cert
         ed25519_signing_key := signing_key
         ed25519_signing_cert := ed25519_signing_cert
         ed25519_authenticate_key := auth_key
         ed25519_authenticate_cert := ed25519_authenticate_cert }

/-- spec-side composite from Claim C1's wording:
    `secret_input = EXP(Y,x) ∥ EXP(B,x) ∥ router_id ∥ B ∥ X ∥ Y ∥ PROTOID`
    with `PROTOID = "ntor-curve25519-sha256-1"` (x RFC-7748-clamped). -/
def ntor_secret_input_spec (curve : List Nat → List Nat → List Nat)
    (Y B X x router_id : List Nat) : List Nat :=
  curve Y (clamp_scalar_bytes x) ++ curve B (clamp_scalar_bytes x) ++ router_id ++
    B ++ X ++ Y ++ strBytes "ntor-curve25519-sha256-1"

/-- spec-side composite from Claim C1's wording:
    `auth_input = verify ∥ router_id ∥ B ∥ Y ∥ X ∥ PROTOID ∥ "Server"` where
    `verify = HMAC_SHA256(key="PROTOID:verify", msg=secret_input)`. -/
def ntor_auth_input_spec (hmac curve : List Nat → List Nat → List Nat)
    (Y B X x router_id : List Nat) : List Nat :=
  hmac (ntor_secret_input_spec curve Y B X x router_id)
      (strBytes "ntor-curve25519-sha256-1:verify") ++
    router_id ++ B ++ Y ++ X ++ strBytes "ntor-curve25519-sha256-1" ++ strBytes "Server"

/-- fixture for Claim C2: a one-hop circuit whose keys are the bytes 0..71. -/
def c2_stack : List CircuitKeys := [CircuitKeys.new (List.range 72)]

/-- fixture for Claim C2: a relay cell addressed to nobody — `recognized = 7`,
    so no layer passes the spec's recognized/digest test. -/
def c2_inner : List Nat := relayCellEncode 3 7 1 0 [104, 105]

/-- fixture for Claim C2: the wire bytes whose backward AES-CTR decryption at
    the single hop yields `c2_inner` (CTR is an involution at equal stream
    positions, so this is the backward stream applied to `c2_inner`). -/
def c2_in_bytes : List Nat := ((CircuitKeys.new (List.range 72)).backward_key.process c2_inner).1

/-- fixture for Claim C8: a one-hop stack whose backward AES key (bytes 56..71
    of the key material) differs from its forward AES key (bytes 40..55). -/
def c8_stack : List CircuitKeys := [CircuitKeys.new (List.range 72)]

/-- fixture for the amended Claim C8 witness: hop keys whose key material is
    constant, so the forward and backward AES-CTR states coincide. -/
def c8w_keys : CircuitKeys := CircuitKeys.new (List.replicate 72 5)

/-- fixture for Claim C4: checks under which every cryptographic validation
    step fails (in particular the RSA identity cert is not self-signed). -/
def c4_checks : CertChecks :=
  ⟨fun _ => false, fun _ => 0, fun _ _ => false, fun _ _ => false, fun _ => [],
    fun _ _ => false⟩

/-- fixture for Claim C4: a CERTS cell carrying exactly one certificate of
    each required kind, which therefore reaches the validation step. -/
def c4_certs : List Cert :=
  [Cert.rsaIdentity ⟨[]⟩, Cert.ed25519Signing ⟨[]⟩, Cert.ed25519Link ⟨[]⟩,
    Cert.ed25519Identity ⟨[], []⟩]

/-- fixture for Claim C6: a CERTS cell with two Ed25519 signing certs. -/
def c6_dup_signing : List Cert := [Cert.ed25519Signing ⟨[]⟩, Cert.ed25519Signing ⟨[]⟩]

/-- fixture for Claim C6: a CERTS cell with two RSA identity certs. -/
def c6_dup_rsa : List Cert := [Cert.rsaIdentity ⟨[]⟩, Cert.rsaIdentity ⟨[]⟩]

/-- fold applying successive AES-CTR stream contexts to a byte sequence (a
    proof helper naming the composite effect of the per-hop cipher loops). -/
def ctxFold (ctxs : List AesContext) (b : List Nat) : List Nat :=
  ctxs.foldl (fun acc c => (c.process acc).1) b

set_option maxRecDepth 100000
set_option maxHeartbeats 4000000

/-- the packed S-box table satisfies the FIPS-197 defining property on all
    256 bytes: undoing the affine transformation on `sbox b` yields the
    multiplicative inverse of `b` in GF(2^8) (and `sbox 0 = 0x63`). -/
theorem sbox_field_property :
    ((List.range 256).all (fun b =>
      let s := sbox b
      if b = 0 then s == 99 else gmul b (sboxInvAffine s) == 1)) = true := by
  decide

/-- spot check: the packed table agrees with the inverse-then-affine S-box
    formula at byte 0x53. -/
theorem sbox_spot_check : sbox 83 = sboxFormula 83 := by decide

/-- SHA-1 known-answer test (FIPS 180, message "abc"). -/
theorem sha1_kat_abc :
    sha1 (strBytes "abc") =
      [169, 153, 62, 54, 71, 6, 129, 106, 186, 62, 37, 113, 120, 80, 194, 108,
        156, 208, 216, 157] := by
  decide

/-- AES-128 known-answer test (FIPS-197 appendix C.1). -/
theorem aes_kat_fips197 :
    aesEncryptBlock [0, 1, 2, 3, 4, 5, 6, 7, 8, 9, 10, 11, 12, 13, 14, 15]
        [0, 17, 34, 51, 68, 85, 102, 119, 136, 153, 170, 187, 204, 221, 238, 255] =
      [105, 196, 224, 216, 106, 123, 4, 48, 216, 205, 183, 128, 112, 180, 197, 90] := by
  decide

/-- AES-128 known-answer test (NIST SP 800-38A, ECB-AES128 block 1). -/
theorem aes_kat_sp800_38a :
    aesEncryptBlock [43, 126, 21, 22, 40, 174, 210, 166, 171, 247, 21, 136, 9, 207, 79, 60]
        [107, 193, 190, 226, 46, 64, 159, 150, 233, 61, 126, 17, 115, 147, 23, 42] =
      [58, 215, 123, 180, 13, 122, 54, 96, 168, 158, 202, 243, 36, 102, 239, 151] := by
  decide

/-- Claim C10: for every relay command and byte payload, if the circuit's
    hop-key stack is empty, Circuit::encrypt_cell_bytes returns the input
    bytes completely unchanged — no relay-cell framing, no digest update and
    no encryption happen (the framing lives inside the per-hop loop, which
    never runs). -/
theorem encrypt_cell_bytes_empty_stack (relay_command : Nat) (bytes : List Nat) :
    encrypt_cell_bytes [] relay_command bytes = (bytes, []) := rfl

/-- Claim C5: InitiatorCerts construction never succeeds — the RSA
    cross-signature over the Ed25519 identity key
    (RsaKey::sign_ed25519_key, keys.rs) is `Err("unimplemented")`, so
    InitiatorCerts::new fails (the source's `.unwrap()` panics) before any
    bundle or CERTS cell can be produced, for every choice of generated keys
    and certificates. -/
theorem initiator_certs_new_unimplemented (self_signed_cert : X509Cert)
    (id_key signing_key auth_key : Ed25519Key)
    (ed_sign : Ed25519Key → Ed25519Key → Nat → Ed25519Cert) :
    InitiatorCerts.new self_signed_cert id_key signing_key auth_key ed_sign =
      Except.error "unimplemented" := rfl

/-- Claim C4: handshake errors are not terminal in the source.  At the
    concrete failing input `c4_certs`/`c4_checks` the responder-cert
    validation fails, yet Circuit::read_certs completes normally
    (`Except.ok`) with no certs stored and no surfaced error; likewise an
    ntor auth failure in Circuit::extend leaves the hop-key stack unchanged
    and surfaces nothing. -/
theorem handshake_error_not_terminal :
    read_certs_update c4_checks c4_certs [] [] = Except.ok none
    ∧ extend_apply_handshake [] (Except.error ()) = [] := ⟨rfl, rfl⟩

/-- Claim C6: distinct duplicate-certificate failures do not yield distinct
    sub-reasons — a CERTS cell with two Ed25519 signing certs and one with
    two RSA identity certs both fail ResponderCerts::new with the identical
    message "more than one RSA identity cert -> invalid CERTS cell". -/
theorem duplicate_cert_reasons_collide :
    ResponderCerts.new c6_dup_signing =
      Except.error "more than one RSA identity cert -> invalid CERTS cell"
    ∧ ResponderCerts.new c6_dup_rsa =
      Except.error "more than one RSA identity cert -> invalid CERTS cell" := ⟨rfl, rfl⟩

/-- Claim C3: tor_kdf does not fail on a KH mismatch.  At X = Y = KH = zero
    bytes the recomputed `SHA1(X ∥ Y ∥ 0x00)` differs from the supplied KH
    (the constant-time comparison is false), yet tor_kdf still derives and
    returns the circuit keys — the forward digest is seeded with the
    concrete bytes of `SHA1(X ∥ Y ∥ 0x01)`. -/
theorem tor_kdf_ignores_kh_mismatch :
    constant_time_eq (sha1 (List.replicate 40 0 ++ [0])) (List.replicate 20 0) = false
    ∧ (tor_kdf (List.replicate 20 0) (List.replicate 20 0) (List.replicate 20 0)).forward_digest
        = [205, 7, 131, 21, 141, 51, 78, 107, 220, 242, 208, 246, 140, 75, 24,
            239, 95, 87, 152, 116] := by
  exact ⟨by decide, by decide⟩

/-- any id produced inside the retry loop has bit 31 set, is nonzero, was not
    live before, and is recorded as live. -/
theorem circIdGo_some_spec (draws : Nat → Nat) (used : List Nat) :
    ∀ r i id used', circIdGo draws used i r = some (id, used') →
      id.testBit 31 = true ∧ id ≠ 0 ∧ id ∉ used ∧ used' = id :: used := by
  intro r
  induction r with
  | zero => intro i id used' h; simp [circIdGo] at h
  | succ n ih =>
    intro i id used' h
    simp only [circIdGo] at h
    by_cases hc : ((draws i % 4294967296) ||| 2147483648) ∈ used
    · rw [if_pos hc] at h
      exact ih (i + 1) id used' h
    · rw [if_neg hc] at h
      have hid : id = (draws i % 4294967296) ||| 2147483648 := by
        cases h; rfl
      have hused : used' = id :: used := by
        cases h; rfl
      subst hid
      have hbit : ((draws i % 4294967296) ||| 2147483648).testBit 31 = true := by
        have h31 : (2147483648 : Nat) = 2 ^ 31 := by norm_num
        rw [Nat.testBit_or, h31, Nat.testBit_two_pow_self, Bool.or_true]
      refine ⟨hbit, ?_, hc, hused⟩
      intro h0
      rw [h0] at hbit
      simp [Nat.zero_testBit] at hbit

/-- when every remaining draw collides with a live id the loop exhausts its
    retries and fails. -/
theorem circIdGo_none_spec (draws : Nat → Nat) (used : List Nat) :
    ∀ r i, (∀ j, i ≤ j → j < i + r → ((draws j % 4294967296) ||| 2147483648) ∈ used) →
      circIdGo draws used i r = none := by
  intro r
  induction r with
  | zero => intro i _; rfl
  | succ n ih =>
    intro i h
    have hi : ((draws i % 4294967296) ||| 2147483648) ∈ used :=
      h i (Nat.le_refl i) (by omega)
    simp only [circIdGo, if_pos hi]
    exact ih (i + 1) (fun j h1 h2 => h j (by omega) (by omega))

/-- Claim C9: every circuit id returned by CircuitIdTracker::get_new_circ_id
    has its high bit set (hence is never zero) and is not a live id (and is
    recorded as live, so it cannot be returned again before release); and
    when 1024 successive draws all collide with live ids the allocator fails
    (the source panics) instead of returning an id. -/
theorem get_new_circ_id_spec (draws : Nat → Nat) (used : List Nat) :
    (∀ id used', get_new_circ_id draws used = some (id, used') →
      id.testBit 31 = true ∧ id ≠ 0 ∧ id ∉ used ∧ used' = id :: used)
    ∧ ((∀ j, j < 1024 → ((draws j % 4294967296) ||| 2147483648) ∈ used) →
      get_new_circ_id draws used = none) := by
  constructor
  · intro id used' h
    exact circIdGo_some_spec draws used 1024 0 id used' h
  · intro h
    exact circIdGo_none_spec draws used 1024 0 (fun j _ h2 => h j (by omega))

/-- witness for Claim C9 at concrete inputs: a zero draw stream over an empty
    live set yields id 0x80000000 with all four properties, and over a live
    set already containing 0x80000000 the allocator is exhausted. -/
theorem get_new_circ_id_spec_witness :
    ((2147483648 : Nat).testBit 31 = true ∧ (2147483648 : Nat) ≠ 0 ∧
      (2147483648 : Nat) ∉ ([] : List Nat) ∧
      ([2147483648] : List Nat) = 2147483648 :: []) ∧
    get_new_circ_id (fun _ => 0) [2147483648] = none := by
  constructor
  · exact (get_new_circ_id_spec (fun _ => 0) []).1 2147483648 [2147483648] (by decide)
  · exact (get_new_circ_id_spec (fun _ => 0) [2147483648]).2 (fun j _ => by decide)

/-- each SHA-1 digest is exactly 20 bytes. -/
theorem sha1_length (msg : List Nat) : (sha1 msg).length = 20 := by
  simp [sha1, wordToBytes32]


/-- Claim C7: for every X, Y and peer KH with KH = SHA1(X ∥ Y ∥ 0x00), KDF-TOR
    partitions its derived bytes exactly as specified: bytes 0..20
    (= SHA1(X∥Y∥0x01)) seed the forward digest, bytes 20..40 (= SHA1(X∥Y∥0x02))
    seed the backward digest, bytes 40..56 are the forward AES-128 key and
    bytes 56..72 the backward AES-128 key (the remaining 8 of the 80 generated
    bytes are discarded). -/
theorem tor_kdf_partition (x y kh : List Nat) (hkh : kh = sha1 (x ++ y ++ [0])) :
    (tor_kdf x y kh).forward_digest = sha1 (x ++ y ++ [1])
    ∧ (tor_kdf x y kh).backward_digest = sha1 (x ++ y ++ [2])
    ∧ (tor_kdf x y kh).forward_key = AesContext.new ((sha1 (x ++ y ++ [3])).take 16)
    ∧ (tor_kdf x y kh).backward_key
        = AesContext.new ((sha1 (x ++ y ++ [3])).drop 16 ++ (sha1 (x ++ y ++ [4])).take 12) := by
  have h1 := sha1_length (x ++ (y ++ [1]))
  have h2 := sha1_length (x ++ (y ++ [2]))
  have h3 := sha1_length (x ++ (y ++ [3]))
  have h4 := sha1_length (x ++ (y ++ [4]))
  simp only [tor_kdf, CircuitKeys.new, AesContext.new, List.append_assoc,
    AesContext.mk.injEq, and_true]
  refine ⟨?_, ?_, ?_, ?_⟩
  · exact List.take_left' h1
  · rw [List.drop_left' h1]
    exact List.take_left' h2
  · rw [show (40 : Nat) = 20 + 20 from rfl, ← List.drop_drop, List.drop_left' h1,
      List.drop_left' h2, List.take_append_eq_append_take, h3]
    norm_num
  · rw [show (56 : Nat) = (20 + 20) + 16 from rfl, ← List.drop_drop, ← List.drop_drop,
      List.drop_left' h1, List.drop_left' h2, List.drop_append_eq_append_drop, h3]
    norm_num
    rw [List.take_append_eq_append_take, List.take_append_eq_append_take,
      List.length_drop, h3, List.take_take]
    norm_num
    rw [List.take_of_length_le (by simp [List.length_drop, h3])]
    rw [h3, List.take_append_eq_append_take, List.length_drop, h3,
      List.take_of_length_le (by simp [List.length_drop, h3]), List.take_take]
    norm_num
    simp [h3]

/-- witness for Claim C7 at X = 20 zero bytes, Y = 20 one bytes and the
    matching KH. -/
theorem tor_kdf_partition_witness :
    (tor_kdf (List.replicate 20 0) (List.replicate 20 1)
        (sha1 (List.replicate 20 0 ++ List.replicate 20 1 ++ [0]))).forward_digest
      = sha1 (List.replicate 20 0 ++ List.replicate 20 1 ++ [1])
    ∧ (tor_kdf (List.replicate 20 0) (List.replicate 20 1)
        (sha1 (List.replicate 20 0 ++ List.replicate 20 1 ++ [0]))).backward_digest
      = sha1 (List.replicate 20 0 ++ List.replicate 20 1 ++ [2])
    ∧ (tor_kdf (List.replicate 20 0) (List.replicate 20 1)
        (sha1 (List.replicate 20 0 ++ List.replicate 20 1 ++ [0]))).forward_key
      = AesContext.new ((sha1 (List.replicate 20 0 ++ List.replicate 20 1 ++ [3])).take 16)
    ∧ (tor_kdf (List.replicate 20 0) (List.replicate 20 1)
        (sha1 (List.replicate 20 0 ++ List.replicate 20 1 ++ [0]))).backward_key
      = AesContext.new ((sha1 (List.replicate 20 0 ++ List.replicate 20 1 ++ [3])).drop 16
          ++ (sha1 (List.replicate 20 0 ++ List.replicate 20 1 ++ [4])).take 12) :=
  tor_kdf_partition (List.replicate 20 0) (List.replicate 20 1)
    (sha1 (List.replicate 20 0 ++ List.replicate 20 1 ++ [0])) rfl

/-- Claim C1: for every CREATED2/EXTENDED2 reply (h_data of at least 64
    bytes), the ntor client handshake returns derived circuit keys if and
    only if the recomputed auth tag — HMAC-SHA256 with key "PROTOID:mac" over
    auth_input = verify ∥ router_id ∥ B ∥ Y ∥ X ∥ PROTOID ∥ "Server", where
    verify is the HMAC of secret_input = EXP(Y,x) ∥ EXP(B,x) ∥ router_id ∥ B
    ∥ X ∥ Y ∥ PROTOID under key "PROTOID:verify" — equals the received auth;
    on a match the keys are derived from key_seed = HMAC of secret_input
    under key "PROTOID:key_extract" fed to KDF-RFC5869, and on a mismatch an
    error and no keys are returned (the comparison in the source goes through
    the constant_time_eq crate, modelled here by list equality). -/
theorem ntor_handshake_auth_iff (hmac curve : List Nat → List Nat → List Nat)
    (h_data router_id server_B client_X client_x : List Nat)
    (hlen : 64 ≤ h_data.length) :
    ((∃ ck, ntor_handshake hmac curve h_data router_id server_B client_X client_x
        = some (Except.ok ck))
      ↔ hmac (ntor_auth_input_spec hmac curve (h_data.take 32) server_B client_X client_x
            router_id) (strBytes "ntor-curve25519-sha256-1:mac")
          = (h_data.drop 32).take 32)
    ∧ ntor_handshake hmac curve h_data router_id server_B client_X client_x
        = some (if hmac (ntor_auth_input_spec hmac curve (h_data.take 32) server_B client_X
              client_x router_id) (strBytes "ntor-curve25519-sha256-1:mac")
            = (h_data.drop 32).take 32
          then Except.ok (compute_ntor_keys hmac
            (hmac (ntor_secret_input_spec curve (h_data.take 32) server_B client_X client_x
              router_id) (strBytes "ntor-curve25519-sha256-1:key_extract")))
          else Except.error ()) := by
  have hparse : ntor_server_handshake_read h_data
      = some (h_data.take 32, (h_data.drop 32).take 32) := by
    simp [ntor_server_handshake_read, hlen]
  have hmain : ntor_handshake hmac curve h_data router_id server_B client_X client_x
      = some (if hmac (ntor_auth_input_spec hmac curve (h_data.take 32) server_B client_X
            client_x router_id) (strBytes "ntor-curve25519-sha256-1:mac")
          = (h_data.drop 32).take 32
        then Except.ok (compute_ntor_keys hmac
          (hmac (ntor_secret_input_spec curve (h_data.take 32) server_B client_X client_x
            router_id) (strBytes "ntor-curve25519-sha256-1:key_extract")))
        else Except.error ()) := by
    simp only [ntor_handshake, hparse, constant_time_eq, ntor_auth_input_spec,
      ntor_secret_input_spec, beq_iff_eq, apply_ite]
    split <;> rename_i h <;> simp [h]
  refine ⟨?_, hmain⟩
  rw [hmain]
  by_cases heq : hmac (ntor_auth_input_spec hmac curve (h_data.take 32) server_B client_X
        client_x router_id) (strBytes "ntor-curve25519-sha256-1:mac")
      = (h_data.drop 32).take 32
  · simp [heq]
  · simp [heq]

/-- witness for Claim C1 at a concrete 64-byte reply with stub hmac and curve
    primitives: the recomputed auth (empty) differs from the received auth
    (32 zero bytes), so the handshake rejects with an error and no keys. -/
theorem ntor_handshake_auth_iff_witness :
    ntor_handshake (fun _ _ => []) (fun _ _ => []) (List.replicate 64 0) [] [] [] []
      = some (Except.error ()) := by
  have h := ntor_handshake_auth_iff (fun _ _ => []) (fun _ _ => [])
      (List.replicate 64 0) [] [] [] [] (by decide)
  rw [h.2, if_neg (by decide)]

/-- every AES block-encryption output is 16 bytes (the final ShiftRows-based
    rounds force the state width). -/
theorem aesEncryptBlock_length (key block : List Nat) :
    (aesEncryptBlock key block).length = 16 := by
  simp [aesEncryptBlock, addRoundKey, shiftRowsL, subBytesL, roundKeyBytes, wordToBytes32]

/-- flattening `n` generated 16-byte blocks yields `16 * n` bytes. -/
theorem flat_blocks_length (f : Nat → List Nat) (hf : ∀ j, (f j).length = 16) :
    ∀ n, ((List.range n).map f).flatten.length = 16 * n := by
  intro n
  induction n with
  | zero => simp
  | succ k ih =>
    rw [List.range_succ, List.map_append, List.flatten_append]
    simp [ih, hf]
    omega

/-- the CTR keystream has exactly the requested length. -/
theorem keystream_length (key : List Nat) (pos len : Nat) :
    (keystream key pos len).length = len := by
  have hf : ∀ j, (aesEncryptBlock key (beBytes 16 (pos / 16 + j))).length = 16 :=
    fun j => aesEncryptBlock_length key _
  simp [keystream, flat_blocks_length _ hf, List.length_drop]
  omega

/-- xoring the same byte stream twice is the identity. -/
theorem zip_xor_cancel : ∀ (l ks : List Nat), ks.length = l.length →
    List.zipWith bxor (List.zipWith bxor l ks) ks = l := by
  intro l
  induction l with
  | nil => intro ks _; simp
  | cons a l ih =>
    intro ks hks
    match ks with
    | [] => simp at hks
    | k :: ks' =>
      simp only [List.zipWith]
      have hxor : bxor (bxor a k) k = a := by
        simp [bxor, Nat.xor_assoc]
      rw [hxor, ih ks' (by simpa using hks)]

/-- a CTR stream context applied twice from the same position cancels. -/
theorem process_cancel (c : AesContext) (b : List Nat) :
    (c.process ((c.process b).1)).1 = b := by
  simp only [AesContext.process]
  rw [List.length_zipWith, keystream_length, Nat.min_self]
  exact zip_xor_cancel b (keystream c.key c.pos b.length) (keystream_length _ _ _)

/-- applying a context list forward undoes applying it in reverse. -/
theorem ctxFold_cancel : ∀ (ctxs : List AesContext) (b : List Nat),
    ctxFold ctxs (ctxFold ctxs.reverse b) = b := by
  intro ctxs
  induction ctxs with
  | nil => intro b; rfl
  | cons c rest ih =>
    intro b
    have happ : List.foldl (fun acc c => (c.process acc).1) b (rest.reverse ++ [c])
        = (c.process (List.foldl (fun acc c => (c.process acc).1) b rest.reverse)).1 := by
      simp [List.foldl_append]
    simp only [ctxFold, List.reverse_cons, List.foldl_cons] at ih ⊢
    rw [happ, process_cancel]
    exact ih b

/-- the non-framing iterations of the encryption loop apply exactly the
    successive forward streams. -/
theorem encryptGo_false_bytes (relay_command : Nat) :
    ∀ (L : List CircuitKeys) (b : List Nat),
      (encryptGo relay_command false b L).1 = ctxFold (L.map (fun ck => ck.forward_key)) b := by
  intro L
  induction L with
  | nil => intro b; rfl
  | cons ck rest ih =>
    intro b
    simp only [encryptGo, ctxFold, List.map_cons, List.foldl_cons]
    exact ih _

/-- on a nonempty (reversed) hop list the encryption loop frames the payload
    at the first hop it visits and then applies every forward stream. -/
theorem encryptGo_true_bytes (relay_command : Nat) (ck : CircuitKeys)
    (rest : List CircuitKeys) (m : List Nat) :
    (encryptGo relay_command true m (ck :: rest)).1
      = ctxFold ((ck :: rest).map (fun c => c.forward_key))
          (relayCellEncode relay_command 0 0
            (beVal ((sha1 (ck.forward_digest ++ relayCellEncode relay_command 0 0 0 m)).take 4))
            m) := by
  simp only [encryptGo, encryptGo_false_bytes, ctxFold, List.map_cons, List.foldl_cons,
    if_true]

/-- the encryption loop never touches backward cipher state. -/
theorem encryptGo_backward_keys (relay_command : Nat) :
    ∀ (L : List CircuitKeys) (first : Bool) (b : List Nat),
      ((encryptGo relay_command first b L).2).map (fun ck => ck.backward_key)
        = L.map (fun ck => ck.backward_key) := by
  intro L
  induction L with
  | nil => intro first b; rfl
  | cons ck rest ih =>
    intro first b
    simp only [encryptGo, List.map_cons]
    rw [ih]

/-- the decryption loop applies exactly the successive backward streams. -/
theorem decryptGo_bytes :
    ∀ (L : List CircuitKeys) (b : List Nat),
      (decryptGo b L).1 = ctxFold (L.map (fun ck => ck.backward_key)) b := by
  intro L
  induction L with
  | nil => intro b; rfl
  | cons ck rest ih =>
    intro b
    simp only [decryptGo, ctxFold, List.map_cons, List.foldl_cons]
    exact ih _

/-- every SHA-1 output byte is below 256. -/
theorem sha1_bytes_lt (m : List Nat) : ∀ b ∈ sha1 m, b < 256 := by
  intro b hb
  simp [sha1, wordToBytes32] at hb
  rcases hb with hb | hb | hb | hb | hb <;>
    rcases hb with hb | hb | hb | hb <;> omega

/-- big-endian folding of bounded bytes is bounded, generalised over the
    accumulator. -/
theorem beVal_lt_aux : ∀ (l : List Nat) (a : Nat), (∀ b ∈ l, b < 256) →
    List.foldl (fun a b => a * 256 + b) a l < (a + 1) * 256 ^ l.length := by
  intro l
  induction l with
  | nil => intro a _; simp
  | cons x l ih =>
    intro a h
    have hx : x < 256 := h x (List.mem_cons_self x l)
    have hrest : ∀ b ∈ l, b < 256 := fun b hb => h b (List.mem_cons_of_mem x hb)
    have step := ih (a * 256 + x) hrest
    calc List.foldl (fun a b => a * 256 + b) (a * 256 + x) l
        < (a * 256 + x + 1) * 256 ^ l.length := step
      _ ≤ (a + 1) * 256 ^ (x :: l).length := by
          simp only [List.length_cons, pow_succ]
          nlinarith [pow_pos (show 0 < 256 by norm_num) l.length]

/-- the big-endian value of bounded bytes is below `256 ^ length`. -/
theorem beVal_lt (l : List Nat) (h : ∀ b ∈ l, b < 256) : beVal l < 256 ^ l.length := by
  have := beVal_lt_aux l 0 h
  simpa [beVal] using this

/-- a relay-cell digest value (4 leading SHA-1 bytes) fits in a u32. -/
theorem relay_digest_lt (s : List Nat) :
    beVal ((sha1 s).take 4) < 4294967296 := by
  have hlt : ∀ b ∈ (sha1 s).take 4, b < 256 :=
    fun b hb => sha1_bytes_lt s b (List.mem_of_mem_take hb)
  have hlen : ((sha1 s).take 4).length = 4 := by
    simp [List.length_take, sha1_length]
  have := beVal_lt _ hlt
  rw [hlen] at this
  exact lt_of_lt_of_le this (by norm_num)

theorem beBytes_two (v : Nat) : beBytes 2 v = [v / 256 % 256, v % 256] := by
  rw [beBytes, show List.range 2 = [0, 1] from rfl]
  norm_num

theorem beBytes_four (v : Nat) :
    beBytes 4 v = [v / 16777216 % 256, v / 65536 % 256, v / 256 % 256, v % 256] := by
  rw [beBytes, show List.range 4 = [0, 1, 2, 3] from rfl]
  norm_num

/-- parsing a freshly encoded relay cell recovers its fields (for in-range
    header values and payloads of at most 498 bytes). -/
theorem relayCellParse_encode (cmd rec sid dg : Nat) (data : List Nat)
    (hrec : rec < 65536) (hsid : sid < 65536) (hdg : dg < 4294967296)
    (hlen : data.length ≤ 498) :
    relayCellParse (relayCellEncode cmd rec sid dg data)
      = some ⟨cmd, rec, sid, dg, data⟩ := by
  have hlen2 : (data.length / 256 % 256) * 256 + data.length % 256 = data.length := by omega
  simp only [relayCellEncode, beBytes_two, beBytes_four, List.cons_append, List.nil_append,
    List.singleton_append, relayCellParse, hlen2]
  rw [if_pos (by simp [List.length_append, List.length_replicate])]
  simp only [Option.some.injEq, RelayCell.mk.injEq]
  refine ⟨trivial, by omega, by omega, by omega, ?_⟩
  exact List.take_left' rfl

/-- Claim C8 (amended): for every ordered nonempty hop-key stack in which
    each hop's backward AES-CTR state equals its forward AES-CTR state, and
    every relay payload of at most 498 bytes, decrypting the result of
    encrypting the payload yields the framed relay cell back: its data is
    exactly the payload, its recognized field is 0, and its digest is the
    running forward test-digest of the innermost hop — i.e. the fully peeled
    layer passes the recognized/digest test. -/
theorem layered_roundtrip_with_matched_keys (front : List CircuitKeys) (hn : CircuitKeys)
    (relay_command : Nat) (m : List Nat)
    (hbk : ∀ ck ∈ front ++ [hn], ck.backward_key = ck.forward_key)
    (hm : m.length ≤ 498) :
    (decrypt_cell_bytes (encrypt_cell_bytes (front ++ [hn]) relay_command m).2
        (encrypt_cell_bytes (front ++ [hn]) relay_command m).1).1
      = some ⟨relay_command, 0, 0,
          beVal ((sha1 (hn.forward_digest ++ relayCellEncode relay_command 0 0 0 m)).take 4),
          m⟩ := by
  have hrev : (front ++ [hn]).reverse = hn :: front.reverse := by simp
  have hwire : (encrypt_cell_bytes (front ++ [hn]) relay_command m).1
      = ctxFold ((hn :: front.reverse).map (fun c => c.forward_key))
          (relayCellEncode relay_command 0 0
            (beVal ((sha1 (hn.forward_digest ++ relayCellEncode relay_command 0 0 0 m)).take 4))
            m) := by
    simp only [encrypt_cell_bytes, hrev]
    exact encryptGo_true_bytes relay_command hn front.reverse m
  have hstack : ((encrypt_cell_bytes (front ++ [hn]) relay_command m).2).map
        (fun c => c.backward_key)
      = ((hn :: front.reverse).map (fun c => c.backward_key)).reverse := by
    simp only [encrypt_cell_bytes, hrev]
    rw [List.map_reverse, encryptGo_backward_keys]
  have hbf : (hn :: front.reverse).map (fun c => c.backward_key)
      = (hn :: front.reverse).map (fun c => c.forward_key) := by
    apply List.map_congr_left
    intro ck hck
    apply hbk
    simp only [List.mem_cons, List.mem_reverse] at hck
    simp only [List.mem_append, List.mem_singleton]
    tauto
  simp only [decrypt_cell_bytes]
  rw [decryptGo_bytes, hstack, hbf, hwire]
  have hcancel := ctxFold_cancel
      (((hn :: front.reverse).map (fun c => c.forward_key)).reverse)
      (relayCellEncode relay_command 0 0
        (beVal ((sha1 (hn.forward_digest ++ relayCellEncode relay_command 0 0 0 m)).take 4)) m)
  rw [List.reverse_reverse] at hcancel
  rw [hcancel]
  exact relayCellParse_encode relay_command 0 0 _ m (by norm_num) (by norm_num)
    (relay_digest_lt _) hm

/-- counterexample to Claim C8 as stated: on the one-hop stack `c8_stack`
    (whose backward key differs from its forward key, as AES-CTR hop keys
    generally do) decrypting the encryption of the payload [104, 105] does
    not yield the payload back — the backward streams do not invert the
    forward streams. -/
theorem layered_roundtrip_counterexample :
    (((decrypt_cell_bytes (encrypt_cell_bytes c8_stack 2 [104, 105]).2
        (encrypt_cell_bytes c8_stack 2 [104, 105]).1).1).map RelayCell.data)
      ≠ some [104, 105] := by decide

/-- witness for the amended Claim C8 on a concrete one-hop stack with equal
    forward and backward AES-CTR states. -/
theorem layered_roundtrip_with_matched_keys_witness :
    (decrypt_cell_bytes (encrypt_cell_bytes ([] ++ [c8w_keys]) 2 [1, 2, 3]).2
        (encrypt_cell_bytes ([] ++ [c8w_keys]) 2 [1, 2, 3]).1).1
      = some ⟨2, 0, 0,
          beVal ((sha1 (c8w_keys.forward_digest ++ relayCellEncode 2 0 0 0 [1, 2, 3])).take 4),
          [1, 2, 3]⟩ :=
  layered_roundtrip_with_matched_keys [] c8w_keys 2 [1, 2, 3] (by decide) (by decide)

/-- Claim C2: the inbound peeling loop returns the parsed relay cell even
    when no layer is recognized.  At the concrete input `c2_in_bytes` on the
    one-hop circuit `c2_stack`, full peeling yields a relay cell with
    recognized = 7 ≠ 0 (so no hop passes the spec's recognized/digest test),
    yet decrypt_cell_bytes returns the cell instead of terminating the
    circuit with ProtocolViolation — the source performs no per-layer test
    at all. -/
theorem decrypt_returns_unrecognized_cell :
    (decrypt_cell_bytes c2_stack c2_in_bytes).1 = some ⟨3, 7, 1, 0, [104, 105]⟩ := by decide
